import Mathlib

/-! Verification development for the IPO monitor script (ipo_monitor.py).
The Python source is shallowly embedded: Python floats are modelled as
rationals, Python int as integers, optional/None values as Option, and
raised exceptions as Except errors.  Functions keep the source names.
-/

set_option maxRecDepth 200000

/-- Decimal digit to character. -/
def digitChar : ℕ → Char
  | 0 => '0'
  | 1 => '1'
  | 2 => '2'
  | 3 => '3'
  | 4 => '4'
  | 5 => '5'
  | 6 => '6'
  | 7 => '7'
  | 8 => '8'
  | _ => '9'

/-- Fuel-based decimal digit list of a natural number (fuel n + 1 always suffices). -/
def natStrLAux : ℕ → ℕ → List Char → List Char
  | 0, _, acc => acc
  | fuel + 1, n, acc =>
    if n < 10 then digitChar n :: acc
    else natStrLAux fuel (n / 10) (digitChar (n % 10) :: acc)

/-- Decimal digit list of a natural number. -/
def natStrL (n : ℕ) : List Char := natStrLAux (n + 1) n []

/-- Decimal string of a natural number. -/
def natStr (n : ℕ) : String := String.mk (natStrL n)

/-- Two-digit zero-padded rendering of a number below 100. -/
def pad2 (n : ℕ) : String := if n < 10 then "0" ++ natStr n else natStr n

/-- Insert thousands separators into a reversed digit list (comma after every
third digit from the right, none at the far end). -/
def commaRev : List Char → ℕ → List Char
  | [], _ => []
  | c :: rest, k =>
    if k % 3 = 2 ∧ rest ≠ [] then c :: ',' :: commaRev rest (k + 1)
    else c :: commaRev rest (k + 1)

/-- Group a digit list with thousands separators, as Python {n:,} does. -/
def groupDigits (s : List Char) : List Char := (commaRev s.reverse 0).reverse

/-- Python f-string rendering of an integer with the comma option, e.g. 15,000,000. -/
def intComma (z : ℤ) : String :=
  (if z < 0 then "-" else "") ++ String.mk (groupDigits (natStrL z.natAbs))

/-- Round the fraction n / d (with d positive) to the nearest integer, ties to
even — the rounding used by Python numeric formatting. -/
def roundHalfEvenPair (n d : ℤ) : ℤ :=
  let f := n.fdiv d
  let r := n.fmod d
  if 2 * r < d then f
  else if d < 2 * r then f + 1
  else if f % 2 = 0 then f else f + 1

/-- Cent count of the absolute value of a rational, rounded half-even: the
digits that Python .2f formatting prints. -/
def cents (q : ℚ) : ℕ := (roundHalfEvenPair (q.num * 100) (q.den : ℤ)).natAbs

/-- Python format spec .2f on our rational model of float: two decimals,
half-even rounding, sign taken from the value. -/
def fmt2 (q : ℚ) : String :=
  let m := cents q
  let s := natStr (m / 100) ++ "." ++ pad2 (m % 100)
  if q < 0 then "-" ++ s else s

/-- Python format spec with comma and .2f: two decimals plus thousands
separators in the integer part. -/
def fmtComma2 (q : ℚ) : String :=
  let m := cents q
  let s := String.mk (groupDigits (natStrL (m / 100))) ++ "." ++ pad2 (m % 100)
  if q < 0 then "-" ++ s else s

/-- Python truthiness of an optional float: None and 0.0 are falsy. -/
def truthyQ : Option ℚ → Bool
  | none => false
  | some q => decide (q ≠ 0)

/-- Python truthiness of an optional int: None and 0 are falsy. -/
def truthyZ : Option ℤ → Bool
  | none => false
  | some z => decide (z ≠ 0)

/-- Python str() applied to an optional string field: None prints as None. -/
def pyOptStr : Option String → String
  | none => "None"
  | some s => s

/-- One raw provider mapping, restricted to the keys the script reads.  A
field is none when the key is absent from the mapping. -/
structure RawIPO where
  symbol : Option String
  name : Option String
  date : Option String
  price : Option ℚ
  numberOfShares : Option ℤ
  exchange : Option String
deriving DecidableEq

/-- The IPOData dataclass of ipo_monitor.py lines 54-63. -/
structure IPOData where
  symbol : String
  name : String
  ipo_date : String
  price : Option ℚ
  shares : Option ℤ
  offer_amount : Option ℚ
  exchange : Option String
deriving DecidableEq

/-- from_finnhub, lines 66-84: the offer amount is computed only when both
price and shares are truthy (in Python, None and zero are both falsy). -/
def IPOData.from_finnhub (data : RawIPO) : IPOData :=
  let price := data.price
  let shares := data.numberOfShares
  let offer_amount : Option ℚ :=
    match price, shares with
    | some p, some s => if p ≠ 0 ∧ s ≠ 0 then some (p * (s : ℚ)) else none
    | _, _ => none
  { symbol := data.symbol.getD "N/A"
    name := data.name.getD "Unknown"
    ipo_date := data.date.getD ""
    price := price
    shares := shares
    offer_amount := offer_amount
    exchange := some (data.exchange.getD "N/A") }

/-- format_offer_amount, lines 86-95. -/
def IPOData.format_offer_amount (ipo : IPOData) : String :=
  match ipo.offer_amount with
  | none => "N/A"
  | some v =>
    if v ≥ 1000000000 then "$" ++ fmt2 (v / 1000000000) ++ "B"
    else if v ≥ 1000000 then "$" ++ fmt2 (v / 1000000) ++ "M"
    else "$" ++ fmtComma2 v

/-- Line 50: the 200 million dollar threshold. -/
def OFFER_AMOUNT_THRESHOLD : ℚ := 200000000

/-- The body of the loop of filter_todays_large_ipos, lines 216-227: skip
records whose date differs from the target, then keep the record when its
offer amount is truthy and exceeds the threshold. -/
def qualifies (ipo : IPOData) (target_date : String) : Bool :=
  if ipo.ipo_date ≠ target_date then false
  else
    match ipo.offer_amount with
    | none => false
    | some v => decide (v ≠ 0) && decide (v > OFFER_AMOUNT_THRESHOLD)

/-- filter_todays_large_ipos, lines 203-229: appends qualifying records in
input order. -/
def filter_todays_large_ipos : List IPOData → String → List IPOData
  | [], _ => []
  | ipo :: rest, target_date =>
    if qualifies ipo target_date then ipo :: filter_todays_large_ipos rest target_date
    else filter_todays_large_ipos rest target_date

/-- Python exceptions that the embedded code can raise or catch. -/
inductive PyExc
  | timeoutErr
  | httpError (status : ℕ)
  | connectionError
  | invalidJSON
  | valueError
  | typeError
  | attributeError
deriving DecidableEq

/-- Delimiter line of 50 equal signs, line 264. -/
def eq50 : String := String.mk (List.replicate 50 '=')

/-- Delimiter line of 30 dashes, line 274. -/
def dash30 : String := String.mk (List.replicate 30 '-')

/-- One per-record block of the plain text body, lines 266-274.  The price and
shares lines use Python truthiness, printing TBD for an absent (or zero)
value. -/
def ipoTextBlock (ipo : IPOData) : String :=
  "Ticker: " ++ ipo.symbol ++ "\n" ++
  "Company: " ++ ipo.name ++ "\n" ++
  "IPO Date: " ++ ipo.ipo_date ++ "\n" ++
  (if truthyQ ipo.price then "Price: $" ++ fmt2 (ipo.price.getD 0) ++ "\n"
   else "Price: TBD\n") ++
  (if truthyZ ipo.shares then "Shares: " ++ intComma (ipo.shares.getD 0) ++ "\n"
   else "Shares: TBD\n") ++
  "Offer Amount: " ++ ipo.format_offer_amount ++ "\n" ++
  "Exchange: " ++ pyOptStr ipo.exchange ++ "\n" ++
  dash30 ++ "\n\n"

/-- Concatenation of a list of strings (string accumulation by +=). -/
def concatAll : List String → String
  | [] => ""
  | s :: rest => s ++ concatAll rest

/-- Plain text body for a non-empty qualifying list, lines 262-274. -/
def textReport (ipos : List IPOData) (date : String) : String :=
  "IPO Monitor Report - " ++ date ++ "\n" ++
  "Found " ++ natStr ipos.length ++ " IPO(s) with offer amount > $200M\n" ++
  eq50 ++ "\n\n" ++
  concatAll (ipos.map ipoTextBlock)

/-- Plain text body of the zero-result branch, lines 244-245. -/
def emptyText (date : String) : String :=
  "IPO Monitor Report - " ++ date ++ "\n\n" ++
  "No IPOs with offer amount > $200M scheduled for today.\n"

/-- HTML body of the zero-result branch, lines 247-258. -/
def emptyHtml (date : String) : String :=
  "\n        <html>\n        <body style=\"font-family: Arial, sans-serif; max-width: 600px; margin: 0 auto;\">\n            <h2 style=\"color: #2c3e50;\">📊 IPO Monitor Report - " ++
  date ++
  "</h2>\n            <p style=\"color: #7f8c8d;\">No IPOs with offer amount > $200M scheduled for today.</p>\n            <hr style=\"border: 1px solid #ecf0f1;\">\n            <p style=\"font-size: 12px; color: #95a5a6;\">\n                This is an automated report from your IPO Monitor.\n            </p>\n        </body>\n        </html>\n        "

/-- One table row of the HTML body, lines 279-293.  The conditional for the
price is placed outside the interpolation braces in the source, so the row
shows the formatted price followed by the literal text of the conditional;
with an absent price the interpolation of None under the .2f format spec
raises TypeError. -/
def ipoHtmlRowParts (ipo : IPOData) (p : ℚ) : List String :=
  ["\n        <tr>\n            <td style=\"padding: 12px; border-bottom: 1px solid #ecf0f1;\">\n                <strong style=\"color: #2980b9; font-size: 16px;\">",
   ipo.symbol,
   "</strong>\n            </td>\n            <td style=\"padding: 12px; border-bottom: 1px solid #ecf0f1;\">",
   ipo.name,
   "</td>\n            <td style=\"padding: 12px; border-bottom: 1px solid #ecf0f1;\">\n                $",
   fmt2 p,
   " if ipo.price else \x27TBD\x27\n            </td>\n            <td style=\"padding: 12px; border-bottom: 1px solid #ecf0f1;\">\n                <strong style=\"color: #27ae60;\">",
   ipo.format_offer_amount,
   "</strong>\n            </td>\n            <td style=\"padding: 12px; border-bottom: 1px solid #ecf0f1;\">",
   pyOptStr ipo.exchange,
   "</td>\n        </tr>\n        "]

def ipoHtmlRow (ipo : IPOData) : Except PyExc String :=
  match ipo.price with
  | none => .error .typeError
  | some p => .ok (concatAll (ipoHtmlRowParts ipo p))

/-- Accumulation of the rows_html string over the list, lines 277-293; the
first raising row aborts the whole rendering call. -/
def mapRows : List IPOData → Except PyExc (List String)
  | [] => .ok []
  | ipo :: rest =>
    match ipoHtmlRow ipo with
    | .error e => .error e
    | .ok r =>
      match mapRows rest with
      | .error e => .error e
      | .ok rs => .ok (r :: rs)

/-- The alert banner of the HTML body carrying the qualifying count, line 300. -/
def countBanner (n : ℕ) : String :=
  "Found <strong>" ++ natStr n ++ "</strong> IPO(s) with offer amount > $200M today!"

/-- Fixed HTML text between the alert banner and the table rows,
lines 301-314. -/
def htmlMid : String :=
  "\n        </p>\n        \n        <table style=\"width: 100%; border-collapse: collapse; margin-top: 20px;\">\n            <thead>\n                <tr style=\"background-color: #3498db; color: white;\">\n                    <th style=\"padding: 12px; text-align: left;\">Ticker</th>\n                    <th style=\"padding: 12px; text-align: left;\">Company</th>\n                    <th style=\"padding: 12px; text-align: left;\">Price</th>\n                    <th style=\"padding: 12px; text-align: left;\">Offer Amount</th>\n                    <th style=\"padding: 12px; text-align: left;\">Exchange</th>\n                </tr>\n            </thead>\n            <tbody>\n                "

/-- Fixed HTML text after the table rows, carrying the threshold footer,
lines 315-325. -/
def htmlTail : String :=
  "\n            </tbody>\n        </table>\n        \n        <hr style=\"border: 1px solid #ecf0f1; margin-top: 30px;\">\n        <p style=\"font-size: 12px; color: #95a5a6;\">\n            This is an automated report from your IPO Monitor.<br>\n            Threshold: Offer Amount > $200,000,000\n        </p>\n    </body>\n    </html>\n    "

/-- HTML body for a non-empty qualifying list, lines 295-325, assembled from
the fixed parts around the interpolated date, count and rows. -/
def htmlReportParts (date : String) (n : ℕ) (rows : String) : List String :=
  ["\n    <html>\n    <body style=\"font-family: Arial, sans-serif; max-width: 800px; margin: 0 auto; padding: 20px;\">\n        <h2 style=\"color: #2c3e50;\">📊 IPO Monitor Report - ",
   date,
   "</h2>\n        <p style=\"background-color: #d4edda; padding: 15px; border-radius: 5px; color: #155724;\">\n            <strong>🔔 Alert:</strong> ",
   countBanner n, htmlMid, rows, htmlTail]

def htmlReport (date : String) (n : ℕ) (rows : String) : String :=
  concatAll (htmlReportParts date n rows)

/-- create_email_content, lines 232-327, returning the pair of HTML and plain
text bodies, or the exception the HTML row construction raises. -/
def create_email_content (ipos : List IPOData) (date : String) :
    Except PyExc (String × String) :=
  if ipos.isEmpty then .ok (emptyHtml date, emptyText date)
  else
    match mapRows ipos with
    | .error e => .error e
    | .ok rows => .ok (htmlReport date ipos.length (concatAll rows), textReport ipos date)

/-- First projection of a rendered body pair, empty on an exception. -/
def exceptHtml : Except PyExc (String × String) → String
  | .ok p => p.1
  | .error _ => ""

/-- Second projection of a rendered body pair, empty on an exception. -/
def exceptText : Except PyExc (String × String) → String
  | .ok p => p.2
  | .error _ => ""

/-- Boolean prefix test on character lists. -/
def isPrefixB : List Char → List Char → Bool
  | [], _ => true
  | _ :: _, [] => false
  | a :: as, b :: bs => a == b && isPrefixB as bs

/-- Boolean substring test on character lists. -/
def containsSub (needle : List Char) : List Char → Bool
  | [] => isPrefixB needle []
  | c :: rest => isPrefixB needle (c :: rest) || containsSub needle rest

/-- Substring test on strings. -/
def strContains (hay needle : String) : Bool := containsSub needle.data hay.data

/-- Exceptions the requests library can raise inside the try block of
get_ipo_calendar (session.get, raise_for_status, response.json): timeout,
HTTPError for a non-2xx status, a transport failure, and a malformed JSON
body.  Library fact: each of these subclasses requests.RequestException. -/
inductive RequestsRaise
  | timeoutErr
  | httpError (status : ℕ)
  | connectionError
  | invalidJSON
deriving DecidableEq

/-- Injection of the requests exceptions into the Python exception model. -/
def RequestsRaise.toPyExc : RequestsRaise → PyExc
  | .timeoutErr => .timeoutErr
  | .httpError s => .httpError s
  | .connectionError => .connectionError
  | .invalidJSON => .invalidJSON

/-- The exceptions matched by an except clause for requests.RequestException. -/
def isRequestException : PyExc → Bool
  | .timeoutErr => true
  | .httpError _ => true
  | .connectionError => true
  | .invalidJSON => true
  | .valueError => false
  | .typeError => false
  | .attributeError => false

/-- The parsed JSON value of a 2xx response body: either a JSON object,
modelled as an association of keys to record lists, or valid JSON that is not
an object (a list, string, number, or null) — a Python value with no .get
method. -/
inductive JsonBody
  | obj (fields : List (String × List RawIPO))
  | nonObj
deriving DecidableEq

/-- Outcome of the single HTTP GET of get_ipo_calendar: either the request
pipeline raises, or a body that parsed as JSON arrives with a 2xx status. -/
inductive FetchOutcome
  | raises (e : RequestsRaise)
  | ok (body : JsonBody)

/-- The try block of get_ipo_calendar, lines 127-131: on an object body the
value of data.get applied to the ipoCalendar key with default empty list; on
a non-object body the attribute lookup data.get itself raises
AttributeError, which is not a requests.RequestException. -/
def tryFetch : FetchOutcome → Except PyExc (List RawIPO)
  | .raises e => .error e.toPyExc
  | .ok (.obj fields) => .ok ((fields.lookup "ipoCalendar").getD [])
  | .ok .nonObj => .error .attributeError

/-- get_ipo_calendar, lines 110-134: the except clause catches
requests.RequestException, logs the failure, and returns the empty list. -/
def FinnhubClient.get_ipo_calendar (outcome : FetchOutcome) : Except PyExc (List RawIPO) :=
  match tryFetch outcome with
  | .ok l => .ok l
  | .error e => if isRequestException e then .ok [] else .error e

/-- Outcome of the SMTP session of send_email (connect, starttls, login,
sendmail, quit): either every step succeeds or some step raises. -/
inductive SmtpOutcome
  | ok
  | raises (e : PyExc)

/-- send_email, lines 152-193: the except Exception clause catches every
exception, logs it, and returns False; success returns True. -/
def EmailNotifier.send_email (outcome : SmtpOutcome) : Bool :=
  match outcome with
  | .ok => true
  | .raises _ => false

/-- The process environment, os.environ: a partial map from keys to values. -/
def Env : Type := String → Option String

/-- Python x or None on an optional string: None and the empty string are
falsy (source comment at line 337). -/
def orNone : Option String → Option String
  | none => none
  | some s => if s = "" then none else some s

/-- Python x or default with a string default. -/
def pyOr (o : Option String) (d : String) : String :=
  match orNone o with
  | none => d
  | some s => s

/-- Python x or y where y is itself an optional string. -/
def pyOrOpt (o : Option String) (d : Option String) : Option String :=
  match orNone o with
  | none => d
  | some s => some s

/-- Digit accumulator for pyInt. -/
def parseDigitsAux : List Char → ℕ → Option ℕ
  | [], acc => some acc
  | c :: rest, acc =>
    if c.isDigit then parseDigitsAux rest (acc * 10 + (c.toNat - 48)) else none

/-- Python int() on a string: an optional sign followed by decimal digits;
any other string raises ValueError, modelled as none.  (The whitespace and
underscore tolerance of int() is irrelevant to the inputs considered here.) -/
def pyInt (s : String) : Option ℤ :=
  match s.data with
  | [] => none
  | '-' :: rest =>
    if rest.isEmpty then none else (parseDigitsAux rest 0).map (fun n => -(n : ℤ))
  | '+' :: rest =>
    if rest.isEmpty then none else (parseDigitsAux rest 0).map (fun n => (n : ℤ))
  | l => (parseDigitsAux l 0).map (fun n => (n : ℤ))

/-- A network interaction attempted by the run. -/
inductive NetCall
  | httpFetch
  | smtpSession
deriving DecidableEq

/-- Observable trace of one run of main: the configuration values resolved at
lines 338-343, the validation log line, the network calls attempted, and the
dispatch result. -/
structure RunLog where
  smtpServer : Option String
  smtpPort : Option ℤ
  recipientVar : Option String
  subjectLine : Option String
  missingLogged : Option (List String)
  calls : List NetCall
  sendResult : Option Bool
deriving DecidableEq

/-- Termination of one run of main. -/
inductive MainResult
  | completed
  | exited (code : ℕ)
  | raised (e : PyExc)
deriving DecidableEq

/-- Process exit status: the sys.exit code, 0 on normal return, and 1 when an
uncaught exception reaches the interpreter. -/
def exitStatus : MainResult → ℕ
  | .completed => 0
  | .exited c => c
  | .raised _ => 1

/-- main, lines 330-397.  The wall-clock date (get_today_date) and the two
network interactions are parameters of the embedding; the rest follows the
source line by line.  Line 342 of the source reads the SMTP_PORT key for the
server hostname. -/
def main' (env : Env) (today : String) (fetchO : FetchOutcome) (smtpO : SmtpOutcome) :
    MainResult × RunLog :=
  let finnhub_api_key := orNone (env "FINNHUB_API_KEY")
  let email_sender := orNone (env "EMAIL_SENDER")
  let email_password := orNone (env "EMAIL_PASSWORD")
  let email_recipient := pyOrOpt (env "EMAIL_RECIPIENT") email_sender
  let smtp_server := pyOr (env "SMTP_PORT") "smtp.gmail.com"
  match pyInt (pyOr (env "SMTP_PORT") "587") with
  | none =>
    (.raised .valueError,
     ⟨some smtp_server, none, email_recipient, none, none, [], none⟩)
  | some smtp_port =>
    let missing_vars :=
      (if finnhub_api_key.isNone then ["FINNHUB_API_KEY"] else []) ++
      (if email_sender.isNone then ["EMAIL_SENDER"] else []) ++
      (if email_password.isNone then ["EMAIL_PASSWORD"] else [])
    if missing_vars ≠ [] then
      (.exited 1,
       ⟨some smtp_server, some smtp_port, email_recipient, none, some missing_vars, [], none⟩)
    else
      match FinnhubClient.get_ipo_calendar fetchO with
      | .error e =>
        (.raised e,
         ⟨some smtp_server, some smtp_port, email_recipient, none, none, [.httpFetch], none⟩)
      | .ok raw_ipos =>
        let ipos := raw_ipos.map IPOData.from_finnhub
        let qualifying_ipos := filter_todays_large_ipos ipos today
        match create_email_content qualifying_ipos today with
        | .error e =>
          (.raised e,
           ⟨some smtp_server, some smtp_port, email_recipient, none, none, [.httpFetch], none⟩)
        | .ok _bodies =>
          let subject :=
            if qualifying_ipos ≠ [] then
              "🔔 IPO Alert: " ++ natStr qualifying_ipos.length ++ " Large IPO(s) Today - " ++ today
            else "📊 IPO Monitor Report - " ++ today
          let success := EmailNotifier.send_email smtpO
          let log : RunLog :=
            ⟨some smtp_server, some smtp_port, email_recipient, some subject, none,
             [.httpFetch, .smtpSession], some success⟩
          if success then (.completed, log) else (.exited 1, log)

/-- The three required configuration keys all resolve to a truthy value, so
the validation of lines 346-357 passes. -/
def requiredPresent (env : Env) : Prop :=
  orNone (env "FINNHUB_API_KEY") ≠ none ∧ orNone (env "EMAIL_SENDER") ≠ none ∧
    orNone (env "EMAIL_PASSWORD") ≠ none


def envBase (k : String) : Option String :=
  if k = "FINNHUB_API_KEY" then some "key123"
  else if k = "EMAIL_SENDER" then some "sender@example.com"
  else if k = "EMAIL_PASSWORD" then some "hunter2"
  else none

/-- Concrete environments and records used by the claim theorems. -/
def raw7 : RawIPO :=
  ⟨some "ABCD", some "Acme Co", some "2024-05-01", some 20, some 15000000, some "NASDAQ"⟩

def ipo7 : IPOData :=
  ⟨"ABCD", "Acme Co", "2024-05-01", some 20, some 15000000, some 300000000, some "NASDAQ"⟩

/-- Raw record with a present but zero price alongside a present share count. -/
def rawZeroPrice : RawIPO :=
  ⟨some "ZERO", some "Zero Co", some "2024-05-01", some 0, some 100, some "NYSE"⟩

/-- Raw record with no price key. -/
def rawNoPrice : RawIPO :=
  ⟨some "NOPR", some "NoPrice Co", some "2024-05-01", none, some 100, some "NYSE"⟩

/-- The selection predicate exactly as the spec words it: exact date string
equality, offer value present, and strictly greater than the threshold. -/
def specSelect (ipo : IPOData) (target : String) : Bool :=
  decide (ipo.ipo_date = target) &&
    (match ipo.offer_amount with
     | none => false
     | some v => decide (v > OFFER_AMOUNT_THRESHOLD))

/-- The formatter exactly as the spec words it: N/A when the value is absent;
the value divided by ten to the ninth with two decimals and a B suffix at or
above one billion; divided by ten to the sixth with two decimals and an M
suffix at or above one million; otherwise two decimals with thousands
separators. -/
def specFormatOffer : Option ℚ → String
  | none => "N/A"
  | some v =>
    if v ≥ 1000000000 then "$" ++ fmt2 (v / 1000000000) ++ "B"
    else if v ≥ 1000000 then "$" ++ fmt2 (v / 1000000) ++ "M"
    else "$" ++ fmtComma2 v

/-- Record carrying only an offer value, for exercising the formatter. -/
def mkOffer (v : Option ℚ) : IPOData := ⟨"T", "N", "2024-01-01", none, none, v, none⟩

/-- The rational 999999.99 in reduced form. -/
def q999999c : ℚ := Rat.mk' 99999999 100 (by decide) (by decide)

/-- The missing_vars list built by the validation block, lines 346-352. -/
def missingList (env : Env) : List String :=
  (if (orNone (env "FINNHUB_API_KEY")).isNone then ["FINNHUB_API_KEY"] else []) ++
  (if (orNone (env "EMAIL_SENDER")).isNone then ["EMAIL_SENDER"] else []) ++
  (if (orNone (env "EMAIL_PASSWORD")).isNone then ["EMAIL_PASSWORD"] else [])

def envC3 (k : String) : Option String :=
  if k = "FINNHUB_API_KEY" then some "key123"
  else if k = "EMAIL_SENDER" then some "sender@example.com"
  else if k = "EMAIL_PASSWORD" then some "hunter2"
  else if k = "SMTP_SERVER" then some "mail.example.com"
  else none

def envC6 (k : String) : Option String :=
  if k = "EMAIL_SENDER" then some "sender@example.com"
  else if k = "EMAIL_PASSWORD" then some "hunter2"
  else if k = "SMTP_PORT" then some "abc"
  else none

def envC6b (k : String) : Option String :=
  if k = "EMAIL_SENDER" then some "sender@example.com"
  else if k = "EMAIL_PASSWORD" then some "hunter2"
  else none

def envEmptyPw (k : String) : Option String :=
  if k = "FINNHUB_API_KEY" then some "key123"
  else if k = "EMAIL_SENDER" then some "sender@example.com"
  else if k = "EMAIL_PASSWORD" then some ""
  else none

def envEmptyRcpt (k : String) : Option String :=
  if k = "FINNHUB_API_KEY" then some "key123"
  else if k = "EMAIL_SENDER" then some "sender@example.com"
  else if k = "EMAIL_PASSWORD" then some "hunter2"
  else if k = "EMAIL_RECIPIENT" then some ""
  else none

def envEmptyPort (k : String) : Option String :=
  if k = "FINNHUB_API_KEY" then some "key123"
  else if k = "EMAIL_SENDER" then some "sender@example.com"
  else if k = "EMAIL_PASSWORD" then some "hunter2"
  else if k = "SMTP_PORT" then some ""
  else none

def envC10 (k : String) : Option String :=
  if k = "FINNHUB_API_KEY" then some "key123"
  else if k = "EMAIL_SENDER" then some "sender@example.com"
  else if k = "EMAIL_PASSWORD" then some "hunter2"
  else if k = "SMTP_SERVER" then some ""
  else if k = "SMTP_PORT" then some "2525"
  else none

theorem isPrefixB_self_append (n t : List Char) : isPrefixB n (n ++ t) = true := by
  induction n with
  | nil => rfl
  | cons c cs ih => simp [isPrefixB, ih]

theorem isPrefixB_extend (n : List Char) :
    ∀ l t : List Char, isPrefixB n l = true → isPrefixB n (l ++ t) = true := by
  induction n with
  | nil => intro l t _; rfl
  | cons c cs ih =>
    intro l t h
    cases l with
    | nil => simp [isPrefixB] at h
    | cons b bs =>
      simp only [isPrefixB, Bool.and_eq_true] at h
      simp [isPrefixB, h.1, ih bs t h.2]

theorem containsSub_cons (n h : List Char) (c : Char)
    (hh : containsSub n h = true) : containsSub n (c :: h) = true := by
  simp [containsSub, hh]

theorem containsSub_append_left (n : List Char) :
    ∀ pre h : List Char, containsSub n h = true → containsSub n (pre ++ h) = true := by
  intro pre
  induction pre with
  | nil => intro h hh; simpa using hh
  | cons c cs ih => intro h hh; exact containsSub_cons n (cs ++ h) c (ih h hh)

theorem containsSub_append_right (n : List Char) :
    ∀ h₁ h₂ : List Char, containsSub n h₁ = true → containsSub n (h₁ ++ h₂) = true := by
  intro h₁
  induction h₁ with
  | nil =>
    intro h₂ hh
    simp only [containsSub] at hh
    cases n with
    | nil =>
      cases h₂ with
      | nil => rfl
      | cons c cs => simp [containsSub, isPrefixB]
    | cons c cs => simp [isPrefixB] at hh
  | cons c cs ih =>
    intro h₂ hh
    simp only [containsSub, Bool.or_eq_true] at hh
    rcases hh with hh | hh
    · have := isPrefixB_extend n (c :: cs) h₂ hh
      simp only [List.cons_append] at this ⊢
      simp [containsSub, this]
    · have := ih h₂ hh
      simp only [List.cons_append]
      exact containsSub_cons n (cs ++ h₂) c this

theorem containsSub_here (n t : List Char) : containsSub n (n ++ t) = true := by
  cases n with
  | nil =>
    cases t with
    | nil => rfl
    | cons c cs => simp [containsSub, isPrefixB]
  | cons c cs =>
    simp only [containsSub, Bool.or_eq_true]
    exact Or.inl (isPrefixB_self_append (c :: cs) t)

theorem containsSub_mid (a n b : List Char) : containsSub n (a ++ (n ++ b)) = true :=
  containsSub_append_left n a (n ++ b) (containsSub_here n b)

theorem str_data_append (s t : String) : (s ++ t).data = s.data ++ t.data := rfl

theorem strContains_append_left {t : String} (s : String) {needle : String}
    (h : strContains t needle = true) : strContains (s ++ t) needle = true := by
  unfold strContains at h ⊢
  rw [str_data_append]
  exact containsSub_append_left _ _ _ h

theorem strContains_append_right {s : String} (t : String) {needle : String}
    (h : strContains s needle = true) : strContains (s ++ t) needle = true := by
  unfold strContains at h ⊢
  rw [str_data_append]
  exact containsSub_append_right _ _ _ h

theorem strContains_mid (a b needle : String) :
    strContains (a ++ (needle ++ b)) needle = true := by
  unfold strContains
  rw [str_data_append, str_data_append]
  exact containsSub_mid _ _ _

theorem strContains_self (s : String) : strContains s s = true := by
  unfold strContains
  have h := containsSub_here s.data []
  simpa using h

theorem concatAll_contains_of {needle r : String} :
    ∀ parts : List String, r ∈ parts → strContains r needle = true →
      strContains (concatAll parts) needle = true := by
  intro parts
  induction parts with
  | nil => intro hmem; exact absurd hmem (List.not_mem_nil r)
  | cons s rest ih =>
    intro hmem hr
    rcases List.mem_cons.mp hmem with h | h
    · subst h
      exact strContains_append_right (concatAll rest) hr
    · exact strContains_append_left s (ih h hr)

theorem concatAll_contains_part {s : String} (parts : List String) (h : s ∈ parts) :
    strContains (concatAll parts) s = true :=
  concatAll_contains_of parts h (strContains_self s)

/-- C1 counterexample: in rawZeroPrice both price and shares are present, and
price × shares is zero, yet the constructed offer_value is absent — the code
conditions the computation on Python truthiness, not on presence. -/
theorem offer_value_zero_price_counterexample :
    rawZeroPrice.price = some 0 ∧ rawZeroPrice.numberOfShares = some 100 ∧
      (IPOData.from_finnhub rawZeroPrice).offer_amount = none := by
  refine ⟨rfl, rfl, ?_⟩
  simp [IPOData.from_finnhub, rawZeroPrice]

/-- C1 (amended): offer_value is price × shares exactly whenever both price
and shares are present and nonzero, and is absent (never zero) whenever
either is missing or zero; it is never independently supplied. -/
theorem offer_value_construction :
    (∀ (raw : RawIPO) (p : ℚ) (s : ℤ), raw.price = some p → raw.numberOfShares = some s →
        p ≠ 0 → s ≠ 0 → (IPOData.from_finnhub raw).offer_amount = some (p * (s : ℚ))) ∧
    (∀ raw : RawIPO, (raw.price = none ∨ raw.numberOfShares = none ∨
        raw.price = some 0 ∨ raw.numberOfShares = some 0) →
      (IPOData.from_finnhub raw).offer_amount = none) := by
  constructor
  · intro raw p s hp hs hp0 hs0
    simp [IPOData.from_finnhub, hp, hs, hp0, hs0]
  · intro raw h
    rcases h with h | h | h | h <;>
      cases hp : raw.price <;> cases hs : raw.numberOfShares <;>
        simp_all [IPOData.from_finnhub]

theorem offer_value_construction_witness :
    (IPOData.from_finnhub raw7).offer_amount = some (20 * ((15000000 : ℤ) : ℚ)) ∧
    (IPOData.from_finnhub rawNoPrice).offer_amount = none :=
  ⟨offer_value_construction.1 raw7 20 15000000 rfl rfl (by norm_num) (by norm_num),
   offer_value_construction.2 rawNoPrice (Or.inl rfl)⟩

/-- C5 counterexample: a 2xx response whose body is valid JSON but not an
object reaches data.get at line 131, whose attribute lookup raises
AttributeError; the except clause for requests.RequestException does not
match it, so the call raises to its caller instead of returning the empty
list — refuting the claim for the malformed-response-body case. -/
theorem fetch_raises_on_nonobject_body_counterexample :
    FinnhubClient.get_ipo_calendar (.ok .nonObj) = .error .attributeError ∧
    isRequestException .attributeError = false :=
  ⟨rfl, rfl⟩

/-- C5 (amended): the fetch never raises on timeout, non-2xx status,
transport failure, or a body that fails JSON decoding — each is caught and
downgraded to the empty list; on a 2xx object body it returns the list under
the ipoCalendar key (empty when the key is absent); but on a 2xx body of
valid non-object JSON the AttributeError from data.get propagates to the
caller. -/
theorem fetch_fail_soft :
    (∀ e : RequestsRaise, FinnhubClient.get_ipo_calendar (.raises e) = .ok []) ∧
    (∀ fields : List (String × List RawIPO),
      FinnhubClient.get_ipo_calendar (.ok (.obj fields)) =
        .ok ((fields.lookup "ipoCalendar").getD [])) ∧
    FinnhubClient.get_ipo_calendar (.ok .nonObj) = .error .attributeError :=
  ⟨fun e => by cases e <;> rfl, fun fields => rfl, rfl⟩

theorem qualifies_eq_specSelect (ipo : IPOData) (t : String) :
    qualifies ipo t = specSelect ipo t := by
  unfold qualifies specSelect
  by_cases hd : ipo.ipo_date = t
  · cases ho : ipo.offer_amount with
    | none => simp [hd]
    | some v =>
      by_cases hv : v > OFFER_AMOUNT_THRESHOLD
      · have hv0 : v ≠ 0 := by
          have : (0 : ℚ) < v := lt_trans (by norm_num [OFFER_AMOUNT_THRESHOLD]) hv
          exact ne_of_gt this
        simp [hd, hv, hv0]
      · simp [hd, hv]
  · simp [hd]

theorem filter_eq_listFilter (ipos : List IPOData) (t : String) :
    filter_todays_large_ipos ipos t = ipos.filter (fun ipo => qualifies ipo t) := by
  induction ipos with
  | nil => rfl
  | cons ipo rest ih =>
    by_cases h : qualifies ipo t = true
    · simp [filter_todays_large_ipos, List.filter_cons, h, ih]
    · simp [filter_todays_large_ipos, List.filter_cons, h, ih]

/-- C2: the filter keeps a record iff its date equals the target by exact
string equality, its offer value is present, and that value strictly exceeds
200,000,000; the output is the order-preserving subsequence of qualifying
records, and a record at exactly the threshold is never selected. -/
theorem filter_select_spec (ipos : List IPOData) (target : String) :
    filter_todays_large_ipos ipos target =
      ipos.filter (fun ipo => specSelect ipo target) ∧
    (filter_todays_large_ipos ipos target).Sublist ipos ∧
    ∀ ipo ∈ filter_todays_large_ipos ipos target,
      ipo.offer_amount ≠ some OFFER_AMOUNT_THRESHOLD := by
  have heq : filter_todays_large_ipos ipos target =
      ipos.filter (fun ipo => specSelect ipo target) := by
    rw [filter_eq_listFilter]
    exact List.filter_congr (fun ipo _ => qualifies_eq_specSelect ipo target)
  refine ⟨heq, ?_, ?_⟩
  · rw [filter_eq_listFilter]; exact List.filter_sublist ipos
  · intro ipo hmem
    rw [heq] at hmem
    have hsel := (List.mem_filter.mp hmem).2
    intro hofv
    rw [specSelect, hofv] at hsel
    simp at hsel

theorem filter_select_spec_witness :
    ipo7 ∈ filter_todays_large_ipos [ipo7] "2024-05-01" ∧
    ipo7.offer_amount ≠ some OFFER_AMOUNT_THRESHOLD :=
  ⟨by decide, (filter_select_spec [ipo7] "2024-05-01").2.2 ipo7 (by decide)⟩

theorem q999999c_eq : q999999c = 99999999 / 100 := by
  rw [q999999c, Rat.mk'_eq_divInt, Rat.divInt_eq_div]; norm_num

/-- C8: the offer formatter returns N/A for an absent value, value/10^9 with
two-decimal rounding and B suffix at or above one billion, value/10^6 with M
suffix at or above one million, and thousands-separated two decimals below
that; in particular 999999.99 formats to $999,999.99, one million to $1.00M
and one billion to $1.00B. -/
theorem format_offer_amount_spec :
    (∀ ipo : IPOData, ipo.format_offer_amount = specFormatOffer ipo.offer_amount) ∧
    q999999c = 99999999 / 100 ∧
    (mkOffer (some q999999c)).format_offer_amount = "$999,999.99" ∧
    (mkOffer (some 1000000)).format_offer_amount = "$1.00M" ∧
    (mkOffer (some 1000000000)).format_offer_amount = "$1.00B" ∧
    (mkOffer none).format_offer_amount = "N/A" := by
  refine ⟨fun ipo => rfl, q999999c_eq, by decide, ?_, ?_, rfl⟩
  · simp only [IPOData.format_offer_amount, mkOffer]
    rw [if_neg (by norm_num), if_pos (by norm_num),
      show (1000000 : ℚ) / 1000000 = 1 by norm_num]
    decide
  · simp only [IPOData.format_offer_amount, mkOffer]
    rw [if_pos (by norm_num),
      show (1000000000 : ℚ) / 1000000000 = 1 by norm_num]
    decide

theorem from_finnhub_raw7 : IPOData.from_finnhub raw7 = ipo7 := by
  simp only [IPOData.from_finnhub, raw7, ipo7, IPOData.mk.injEq]
  norm_num

theorem ipo7_format : ipo7.format_offer_amount = "$300.00M" := by
  simp only [IPOData.format_offer_amount, ipo7]
  rw [if_neg (by norm_num), if_pos (by norm_num),
    show (300000000 : ℚ) / 1000000 = 300 by norm_num]
  decide

/-- C7: the scenario raw record yields offer value 300,000,000, is selected by
the filter for target date 2024-05-01, and the plain body rendered from the
filter output contains the lines Ticker: ABCD and Offer Amount: $300.00M. -/
theorem scenario_end_to_end :
    (IPOData.from_finnhub raw7).offer_amount = some 300000000 ∧
    filter_todays_large_ipos [IPOData.from_finnhub raw7] "2024-05-01" =
      [IPOData.from_finnhub raw7] ∧
    strContains (exceptText (create_email_content
        (filter_todays_large_ipos [IPOData.from_finnhub raw7] "2024-05-01")
        "2024-05-01")) "Ticker: ABCD\n" = true ∧
    strContains (exceptText (create_email_content
        (filter_todays_large_ipos [IPOData.from_finnhub raw7] "2024-05-01")
        "2024-05-01")) "Offer Amount: $300.00M\n" = true := by
  rw [from_finnhub_raw7]
  have hfil : filter_todays_large_ipos [ipo7] "2024-05-01" = [ipo7] := by decide
  rw [hfil]
  refine ⟨by decide, rfl, ?_, ?_⟩ <;>
  · have htext : exceptText (create_email_content [ipo7] "2024-05-01") =
        textReport [ipo7] "2024-05-01" := rfl
    rw [htext]
    simp only [textReport, ipoTextBlock, List.map, concatAll, ipo7_format]
    decide

/-- C4 counterexample: for the qualifying record ipo7 the plain body carries
the record's share count (and date) in its per-record block, but the HTML
body nowhere contains the share count — the table rows do not carry the same
per-record fields as the plain body. -/
theorem html_missing_fields_counterexample :
    strContains (exceptText (create_email_content [ipo7] "2024-05-01"))
      "Shares: 15,000,000" = true ∧
    strContains (exceptHtml (create_email_content [ipo7] "2024-05-01"))
      "15,000,000" = false := by
  constructor
  · have htext : exceptText (create_email_content [ipo7] "2024-05-01") =
        textReport [ipo7] "2024-05-01" := rfl
    rw [htext]
    simp only [textReport, ipoTextBlock, List.map, concatAll, ipo7_format]
    decide
  · have hhtml : exceptHtml (create_email_content [ipo7] "2024-05-01") =
        htmlReport "2024-05-01" 1 (concatAll [concatAll (ipoHtmlRowParts ipo7 20)]) := rfl
    rw [hhtml]
    simp only [htmlReport, htmlReportParts, ipoHtmlRowParts, concatAll, ipo7_format]
    decide

theorem mapRows_row {ipos : List IPOData} {rows : List String}
    (h : mapRows ipos = .ok rows) :
    ∀ ipo ∈ ipos, ∃ r ∈ rows, ipoHtmlRow ipo = .ok r := by
  induction ipos generalizing rows with
  | nil => intro ipo hmem; exact absurd hmem (List.not_mem_nil ipo)
  | cons a rest ih =>
    intro ipo hmem
    cases ha : ipoHtmlRow a with
    | error e =>
      simp only [mapRows, ha] at h
      exact Except.noConfusion h
    | ok r =>
      cases hrest : mapRows rest with
      | error e =>
        simp only [mapRows, ha, hrest] at h
        exact Except.noConfusion h
      | ok rs =>
        simp only [mapRows, ha, hrest, Except.ok.injEq] at h
        subst h
        rcases List.mem_cons.mp hmem with hm | hm
        · subst hm; exact ⟨r, List.mem_cons_self r rs, ha⟩
        · obtain ⟨r', hr', hrow⟩ := ih hrest ipo hm
          exact ⟨r', List.mem_cons_of_mem r hr', hrow⟩

theorem row_contains_fields {ipo : IPOData} {p : ℚ} {r : String}
    (hp : ipo.price = some p) (h : ipoHtmlRow ipo = .ok r) :
    strContains r ipo.symbol = true ∧ strContains r ipo.name = true ∧
    strContains r ipo.format_offer_amount = true ∧
    strContains r (pyOptStr ipo.exchange) = true := by
  simp only [ipoHtmlRow, hp, Except.ok.injEq] at h
  subst h
  refine ⟨?_, ?_, ?_, ?_⟩ <;>
    exact concatAll_contains_part (ipoHtmlRowParts ipo p) (by simp [ipoHtmlRowParts])

/-- C4 (amended): for every non-empty list of records that renders
successfully, each HTML table row carries the record's ticker, company,
formatted offer value and exchange — but not the record's date or share
count, which only the plain body lists — with the qualifying count banner in
the body and the fixed threshold stated in the footer. -/
theorem html_body_fields (ipos : List IPOData) (date : String) (html text : String)
    (hne : ipos ≠ []) (hok : create_email_content ipos date = .ok (html, text)) :
    (∀ ipo ∈ ipos, strContains html ipo.symbol = true ∧
      strContains html ipo.name = true ∧
      strContains html ipo.format_offer_amount = true ∧
      strContains html (pyOptStr ipo.exchange) = true) ∧
    strContains html (countBanner ipos.length) = true ∧
    strContains html "Threshold: Offer Amount > $200,000,000" = true := by
  have hempty : ipos.isEmpty = false := by
    cases ipos with
    | nil => exact absurd rfl hne
    | cons a rest => rfl
  cases hmr : mapRows ipos with
  | error e =>
    simp only [create_email_content, hempty, Bool.false_eq_true, if_false, hmr] at hok
    exact Except.noConfusion hok
  | ok rows =>
    simp only [create_email_content, hempty, Bool.false_eq_true, if_false, hmr,
      Except.ok.injEq, Prod.mk.injEq] at hok
    obtain ⟨hh, _⟩ := hok
    subst hh
    have hrowsmem : concatAll rows ∈ htmlReportParts date ipos.length (concatAll rows) := by
      simp [htmlReportParts]
    refine ⟨?_, ?_, ?_⟩
    · intro ipo hmem
      obtain ⟨r, hr, hrow⟩ := mapRows_row hmr ipo hmem
      cases hp : ipo.price with
      | none =>
        simp only [ipoHtmlRow, hp] at hrow
        exact Except.noConfusion hrow
      | some p =>
        obtain ⟨h1, h2, h3, h4⟩ := row_contains_fields hp hrow
        refine ⟨?_, ?_, ?_, ?_⟩ <;>
          [exact concatAll_contains_of _ hrowsmem (concatAll_contains_of rows hr h1);
           exact concatAll_contains_of _ hrowsmem (concatAll_contains_of rows hr h2);
           exact concatAll_contains_of _ hrowsmem (concatAll_contains_of rows hr h3);
           exact concatAll_contains_of _ hrowsmem (concatAll_contains_of rows hr h4)]
    · exact concatAll_contains_part _ (by simp [htmlReportParts])
    · refine concatAll_contains_of _ (show htmlTail ∈ _ by simp [htmlReportParts]) ?_
      decide

theorem html_body_fields_witness :
    ([ipo7] ≠ ([] : List IPOData)) ∧
    strContains (exceptHtml (create_email_content [ipo7] "2024-05-01"))
      (countBanner 1) = true :=
  ⟨by decide, (html_body_fields [ipo7] "2024-05-01"
      (exceptHtml (create_email_content [ipo7] "2024-05-01"))
      (exceptText (create_email_content [ipo7] "2024-05-01"))
      (by decide) rfl).2.1⟩

/-- C3 (code bug at line 342): the SMTP hostname is read from the SMTP_PORT
key, not from the SMTP_SERVER key: with the relay host key set to
mail.example.com and the port key unset, the dispatcher is constructed with
hostname smtp.gmail.com, ignoring the configured relay host (contradicting
the module docstring, lines 20-21). -/
theorem smtp_host_ignores_server_key :
    envC3 "SMTP_SERVER" = some "mail.example.com" ∧
    (main' envC3 "2024-05-01" (.ok (.obj [])) .ok).2.smtpServer = some "smtp.gmail.com" := by
  decide

/-- C6 counterexample: the provider key is missing, yet because the relay
port value abc is passed to int() at line 343 before the validation block,
the run dies with an uncaught ValueError and the missing keys are never
enumerated in the log (the exit status is still 1 and no network call is
made). -/
theorem missing_key_unenumerated_counterexample :
    orNone (envC6 "FINNHUB_API_KEY") = none ∧
    (main' envC6 "2024-05-01" (.ok (.obj [])) .ok).1 = .raised .valueError ∧
    (main' envC6 "2024-05-01" (.ok (.obj [])) .ok).2.missingLogged = none := by decide

/-- C6 (amended): whenever a required key is missing the run terminates with
exit status 1 before any network call; provided the relay port value (when
set) parses as an integer, the termination is via sys.exit(1) with the set of
missing keys enumerated in the log. -/
theorem missing_config_aborts (env : Env) (today : String) (fO : FetchOutcome)
    (sO : SmtpOutcome) (h : ¬ requiredPresent env) :
    exitStatus (main' env today fO sO).1 = 1 ∧
    (main' env today fO sO).2.calls = [] ∧
    (∀ p : ℤ, pyInt (pyOr (env "SMTP_PORT") "587") = some p →
      (main' env today fO sO).1 = .exited 1 ∧
      (main' env today fO sO).2.missingLogged = some (missingList env)) := by
  have hmv : missingList env ≠ [] := by
    by_cases h1 : orNone (env "FINNHUB_API_KEY") = none
    · exact List.ne_nil_of_mem (show "FINNHUB_API_KEY" ∈ _ by simp [missingList, h1])
    · by_cases h2 : orNone (env "EMAIL_SENDER") = none
      · exact List.ne_nil_of_mem (show "EMAIL_SENDER" ∈ _ by simp [missingList, h2])
      · by_cases h3 : orNone (env "EMAIL_PASSWORD") = none
        · exact List.ne_nil_of_mem (show "EMAIL_PASSWORD" ∈ _ by simp [missingList, h3])
        · exact absurd (show requiredPresent env from ⟨h1, h2, h3⟩) h
  cases hp : pyInt (pyOr (env "SMTP_PORT") "587") with
  | none =>
    refine ⟨?_, ?_, ?_⟩
    · simp only [main', hp]; rfl
    · simp only [main', hp]
    · intro p hp'
      exact absurd hp' (by simp)
  | some port =>
    have hmv' : ((if (orNone (env "FINNHUB_API_KEY")).isNone then ["FINNHUB_API_KEY"] else []) ++
        (if (orNone (env "EMAIL_SENDER")).isNone then ["EMAIL_SENDER"] else []) ++
        (if (orNone (env "EMAIL_PASSWORD")).isNone then ["EMAIL_PASSWORD"] else [])) ≠ [] := by
      simpa only [missingList] using hmv
    refine ⟨?_, ?_, ?_⟩
    · simp only [main', hp]
      rw [if_pos hmv']
      rfl
    · simp only [main', hp]
      rw [if_pos hmv']
    · intro p hp'
      constructor
      · simp only [main', hp]
        rw [if_pos hmv']
      · simp only [main', hp]
        rw [if_pos hmv']
        simp only [missingList]

theorem missing_config_aborts_witness :
    (¬ requiredPresent envC6b) ∧
    exitStatus (main' envC6b "2024-05-01" (.ok (.obj [])) .ok).1 = 1 ∧
    (main' envC6b "2024-05-01" (.ok (.obj [])) .ok).2.calls = [] :=
  ⟨fun hc => hc.1 (by decide),
   (missing_config_aborts envC6b "2024-05-01" (.ok (.obj [])) .ok (fun hc => hc.1 (by decide))).1,
   (missing_config_aborts envC6b "2024-05-01" (.ok (.obj [])) .ok (fun hc => hc.1 (by decide))).2.1⟩

/-- C10: an empty string is treated as absent for the required keys, the
recipient and the port (abort with the key listed as missing; recipient
defaulting to the sender; port defaulting to 587 with hostname
smtp.gmail.com); but an empty relay host value does not fall back to the
default hostname when the port key is set — the hostname is read from the
SMTP_PORT key at line 342, here literally 2525. -/
theorem empty_values_as_absent :
    (main' envEmptyPw "2024-05-01" (.ok (.obj [])) .ok).1 = .exited 1 ∧
    (main' envEmptyPw "2024-05-01" (.ok (.obj [])) .ok).2.missingLogged = some ["EMAIL_PASSWORD"] ∧
    (main' envEmptyRcpt "2024-05-01" (.ok (.obj [])) .ok).2.recipientVar = some "sender@example.com" ∧
    (main' envEmptyPort "2024-05-01" (.ok (.obj [])) .ok).2.smtpPort = some 587 ∧
    (main' envEmptyPort "2024-05-01" (.ok (.obj [])) .ok).2.smtpServer = some "smtp.gmail.com" ∧
    envC10 "SMTP_SERVER" = some "" ∧
    (main' envC10 "2024-05-01" (.ok (.obj [])) .ok).2.smtpServer = some "2525" := by decide

theorem from_finnhub_price_of_offer (raw : RawIPO) :
    (IPOData.from_finnhub raw).offer_amount ≠ none →
      (IPOData.from_finnhub raw).price ≠ none := by
  cases hp : raw.price <;> cases hs : raw.numberOfShares <;>
    simp [IPOData.from_finnhub, hp, hs]

theorem qualifies_offer_ne_none {ipo : IPOData} {t : String}
    (h : qualifies ipo t = true) : ipo.offer_amount ≠ none := by
  intro ho
  rw [qualifies, ho] at h
  by_cases hd : ipo.ipo_date ≠ t <;> simp [hd] at h

theorem mem_filter_qualifies {ipo : IPOData} {l : List IPOData} {t : String}
    (h : ipo ∈ filter_todays_large_ipos l t) : ipo ∈ l ∧ qualifies ipo t = true := by
  rw [filter_eq_listFilter] at h
  exact List.mem_filter.mp h

theorem mapRows_ok_of_price :
    ∀ ipos : List IPOData, (∀ ipo ∈ ipos, ipo.price ≠ none) →
      ∃ rows, mapRows ipos = .ok rows := by
  intro ipos
  induction ipos with
  | nil => intro _; exact ⟨[], rfl⟩
  | cons a rest ih =>
    intro h
    have ha := h a (List.mem_cons_self a rest)
    cases hp : a.price with
    | none => exact absurd hp ha
    | some p =>
      obtain ⟨rows, hrows⟩ := ih (fun ipo hm => h ipo (List.mem_cons_of_mem a hm))
      exact ⟨concatAll (ipoHtmlRowParts a p) :: rows,
        by simp [mapRows, ipoHtmlRow, hp, hrows]⟩

theorem create_ok_of_prices (ipos : List IPOData) (date : String)
    (h : ∀ ipo ∈ ipos, ipo.price ≠ none) :
    ∃ pr, create_email_content ipos date = .ok pr := by
  cases hi : ipos.isEmpty with
  | true => exact ⟨(emptyHtml date, emptyText date), by simp [create_email_content, hi]⟩
  | false =>
    obtain ⟨rows, hrows⟩ := mapRows_ok_of_price ipos h
    exact ⟨(htmlReport date ipos.length (concatAll rows), textReport ipos date),
      by simp [create_email_content, hi, hrows]⟩

/-- C9: with the required configuration complete the process exits 0 exactly
when the dispatch reports success — including the zero-qualifying case, e.g.
after a fetch failure downgraded to an empty list — exits 1 when the dispatch
reports failure, and a dispatch failure is surfaced only as that exit code,
never as a propagated exception. -/
theorem exit_code_matches_dispatch (env : Env) (today : String) (fO : FetchOutcome)
    (sO : SmtpOutcome) (h : requiredPresent env) :
    (exitStatus (main' env today fO sO).1 = 0 ↔
      (main' env today fO sO).2.sendResult = some true) ∧
    ((main' env today fO sO).2.sendResult = some false →
      (main' env today fO sO).1 = .exited 1) := by
  obtain ⟨k1, hv1⟩ := Option.ne_none_iff_exists'.mp h.1
  obtain ⟨k2, hv2⟩ := Option.ne_none_iff_exists'.mp h.2.1
  obtain ⟨k3, hv3⟩ := Option.ne_none_iff_exists'.mp h.2.2
  cases hp : pyInt (pyOr (env "SMTP_PORT") "587") with
  | none =>
    simp only [main', hp]
    exact ⟨by simp [exitStatus], by simp⟩
  | some port =>
    cases hf : FinnhubClient.get_ipo_calendar fO with
    | error e =>
      simp only [main', hp, hv1, hv2, hv3, Option.isNone_some, Bool.false_eq_true, if_false,
        List.append_nil, List.nil_append, ne_eq, not_true_eq_false, hf]
      exact ⟨by simp [exitStatus], by simp⟩
    | ok raws =>
      have hprices : ∀ ipo ∈ filter_todays_large_ipos
          (raws.map IPOData.from_finnhub) today, ipo.price ≠ none := by
        intro ipo hmem
        obtain ⟨hin, hq⟩ := mem_filter_qualifies hmem
        obtain ⟨raw, _, hraw⟩ := List.mem_map.mp hin
        rw [← hraw]
        rw [← hraw] at hq
        exact from_finnhub_price_of_offer raw (qualifies_offer_ne_none hq)
      obtain ⟨pr, hcr⟩ := create_ok_of_prices
        (filter_todays_large_ipos (raws.map IPOData.from_finnhub) today) today hprices
      simp only [main', hp, hv1, hv2, hv3, Option.isNone_some, Bool.false_eq_true, if_false,
        List.append_nil, List.nil_append, ne_eq, not_true_eq_false, hf, hcr]
      cases sO with
      | ok =>
        exact ⟨by simp [exitStatus, EmailNotifier.send_email],
          by simp [EmailNotifier.send_email]⟩
      | raises e =>
        exact ⟨by simp [exitStatus, EmailNotifier.send_email],
          by simp [EmailNotifier.send_email]⟩

theorem exit_code_matches_dispatch_witness :
    requiredPresent envBase ∧
    (exitStatus (main' envBase "2024-05-01" (.raises .connectionError) .ok).1 = 0 ↔
      (main' envBase "2024-05-01" (.raises .connectionError) .ok).2.sendResult = some true) :=
  ⟨⟨by decide, by decide, by decide⟩,
   (exit_code_matches_dispatch envBase "2024-05-01" (.raises .connectionError) .ok
      ⟨by decide, by decide, by decide⟩).1⟩
